import Mathlib

/-!
# Sources/Curio/Curio.h

A shallow embedding of the header `Sources/Curio/Curio.h` and of the part of
the C preprocessor that decides what the header does: conditional groups
opened by `#ifndef` and closed by `#endif`, `#define`, comments, blank lines,
and text lines, whose tokens are subject to macro replacement and may carry
the `_Pragma` operator.

The state a translation unit brings to an inclusion is its macro table: every
defined macro with its replacement list. An inclusion returns the new macro
table and the text lines the header emits. Constructs outside the embedded
part (invocation of a function-like macro, built-in macros, pragmas other than
`GCC poison`, `push_macro` and `pop_macro`) stop the run with
`Res.unsupported`, so a theorem that obtains `Res.ok` never rests on them.
-/

namespace Curio

/-- Name of a preprocessor macro. -/
abbrev MacroName := String

/-- The pragmas that act on the state of the preprocessor. -/
inductive Pragma where
  /-- The pragma `GCC poison` with the identifiers it names. -/
  | poison (names : List String)
  /-- The pragma `push_macro("m")`. -/
  | pushMacro (m : MacroName)
  /-- The pragma `pop_macro("m")`. -/
  | popMacro (m : MacroName)
  /-- Any other pragma, with the words of its text. -/
  | other (words : List String)
  deriving DecidableEq, Repr

/-- Preprocessing tokens. -/
inductive Token where
  /-- An identifier. -/
  | ident (s : String)
  /-- A preprocessing number. -/
  | number (s : String)
  /-- A string literal. -/
  | strlit (s : String)
  /-- A punctuator. -/
  | punct (s : String)
  /-- The operator `_Pragma("...")`, with the pragma its string argument spells. -/
  | pragmaOp (p : Pragma)
  deriving DecidableEq, Repr

/-- Definition of a macro. -/
inductive MacroDef where
  /-- An object-like macro with its replacement list. -/
  | object (body : List Token)
  /-- A function-like macro with its parameters and replacement list. -/
  | function (params : List String) (body : List Token)
  deriving DecidableEq, Repr

/-- The macro table: the most recent definition of a name comes first. -/
abbrev Table := List (MacroName × MacroDef)

/-- Whether `m` is defined, as `#ifdef` and `#ifndef` test it. -/
def Table.isDefined (t : Table) (m : MacroName) : Bool :=
  (t.lookup m).isSome

/-- Whether `m` is defined as an object-like macro, so that the bare identifier
`m` in a text line is replaced. -/
def Table.objectLike (t : Table) (m : MacroName) : Bool :=
  match t.lookup m with
  | some (.object _) => true
  | _ => false

/-- The effect of `#undef m`. -/
def Table.undef (m : MacroName) (t : Table) : Table :=
  t.filter (fun e => e.1 != m)

/-- The effect of `#define m d`: a definition identical to the current one
changes nothing, any other becomes the current definition. -/
def Table.define (m : MacroName) (d : MacroDef) (t : Table) : Table :=
  if t.lookup m = some d then t else (m, d) :: t

/-- What a translation unit carries from line to line: the macro table, the
identifiers poisoned so far and the definitions saved by `push_macro`. -/
structure Env where
  /-- The macro table. -/
  defined : Table
  /-- Identifiers named by a poison pragma. -/
  poisoned : List String
  /-- Definitions saved by `push_macro` and not yet restored, the most recent
  first; `none` records that the name was not defined when it was saved. -/
  pushed : List (MacroName × Option MacroDef)
  deriving DecidableEq, Repr

/-- Remove the most recent saved definition of `m`. -/
def dropSaved (m : MacroName) :
    List (MacroName × Option MacroDef) → List (MacroName × Option MacroDef)
  | [] => []
  | e :: es => if e.1 = m then es else e :: dropSaved m es

/-- The effect of a poison pragma, as GCC's preprocessor carries it out: each
name is poisoned and, if it is a macro, its definition is dropped. -/
def Env.poison (names : List String) (e : Env) : Env :=
  { e with defined := e.defined.filter (fun d => !names.contains d.1),
           poisoned := names ++ e.poisoned }

/-- The effect of `push_macro("m")`: the current definition of `m`, or its
absence, is saved. -/
def Env.pushMacro (m : MacroName) (e : Env) : Env :=
  { e with pushed := (m, e.defined.lookup m) :: e.pushed }

/-- The effect of `pop_macro("m")`: the most recent saved definition of `m`
is restored, and `m` becomes undefined if it was undefined when saved; with
nothing saved for `m` nothing changes. -/
def Env.popMacro (m : MacroName) (e : Env) : Env :=
  match e.pushed.lookup m with
  | none => e
  | some none => { e with defined := e.defined.undef m, pushed := dropSaved m e.pushed }
  | some (some d) =>
      { e with defined := (m, d) :: e.defined.undef m, pushed := dropSaved m e.pushed }

/-- Diagnostics that fail the translation unit. -/
inductive Err where
  /-- Use of a poisoned identifier. -/
  | poisoned (x : String)
  /-- An `#endif` without an open conditional group. -/
  | endifWithoutIf
  /-- A conditional group still open at the end of the file. -/
  | unterminatedConditional
  deriving DecidableEq, Repr

/-- Outcome of a run of the preprocessor. -/
inductive Res (α : Type) where
  /-- The run finished. -/
  | ok (a : α)
  /-- The run met an error. -/
  | error (e : Err)
  /-- The run met a construct outside the embedded part of the preprocessor. -/
  | unsupported
  /-- Macro replacement did not finish within the given number of steps. -/
  | outOfFuel
  deriving DecidableEq, Repr

/-- Names the preprocessor replaces by itself rather than from the table. -/
def builtins : List String :=
  ["__LINE__", "__FILE__", "__DATE__", "__TIME__", "__COUNTER__", "__TIMESTAMP__",
   "__BASE_FILE__", "__INCLUDE_LEVEL__", "__FILE_NAME__", "__has_include",
   "__has_include_next", "__has_feature", "__has_extension", "__has_builtin",
   "__has_attribute", "__has_warning", "__is_identifier", "_Pragma"]

/-- A token waiting to be rescanned: the macro names that may no longer be
replaced in it, and whether it comes out of a replacement list rather than from
the file itself. -/
structure Work where
  /-- The token. -/
  tok : Token
  /-- Names of the macros whose replacement produced the token. -/
  hide : List String
  /-- Whether the token comes out of a replacement list. -/
  expanded : Bool

/-- Macro replacement of the tokens of a text line, left to right, with
rescanning. `out` collects the tokens already final. An identifier read from
the file that is poisoned is an error; an object-like macro is replaced by its
replacement list, in which its own name is no longer replaced; the name of a
function-like macro is left alone unless an opening parenthesis follows; a
pragma takes effect when it is reached and stays in the output. -/
def expand : Nat → Env → List Work → List Token → Res (Env × List Token)
  | _, env, [], out => .ok (env, out)
  | 0, _, _ :: _, _ => .outOfFuel
  | fuel + 1, env, w :: rest, out =>
    match w.tok with
    | .ident x =>
      if w.expanded = false ∧ x ∈ env.poisoned then .error (.poisoned x)
      else if x ∈ builtins then .unsupported
      else if x ∈ w.hide then expand fuel env rest (out ++ [w.tok])
      else
        match env.defined.lookup x with
        | none => expand fuel env rest (out ++ [w.tok])
        | some (.object body) =>
          expand fuel env (body.map (fun b => Work.mk b (x :: w.hide) true) ++ rest) out
        | some (.function _ _) =>
          match rest with
          | ⟨.punct "(", _, _⟩ :: _ => .unsupported
          | _ => expand fuel env rest (out ++ [w.tok])
    | .pragmaOp (.poison names) => expand fuel (env.poison names) rest (out ++ [w.tok])
    | .pragmaOp (.pushMacro m) => expand fuel (env.pushMacro m) rest (out ++ [w.tok])
    | .pragmaOp (.popMacro m) => expand fuel (env.popMacro m) rest (out ++ [w.tok])
    | .pragmaOp (.other _) => .unsupported
    | _ => expand fuel env rest (out ++ [w.tok])

/-- One physical line of a file, as the preprocessor classifies it. -/
inductive Line where
  /-- A line holding only a comment. -/
  | comment
  /-- An empty line. -/
  | blank
  /-- The directive `#ifndef m`. -/
  | ifndef (m : MacroName)
  /-- The directive `#define m` followed by the definition. -/
  | define (m : MacroName) (d : MacroDef)
  /-- The directive `#endif`. -/
  | endif
  /-- A text line with its tokens. -/
  | text (toks : List Token)
  deriving DecidableEq, Repr

/-- State of the preprocessor while it walks through a file. -/
structure PPState where
  /-- The environment: macro table, poisoned identifiers, saved definitions. -/
  env : Env
  /-- Open conditional groups, innermost first; `true` when the group is
  being processed. -/
  conds : List Bool
  /-- Text lines emitted so far, in source order, after macro replacement. -/
  out : List (List Token)

/-- A line is processed only when every enclosing conditional group is taken. -/
def PPState.active (s : PPState) : Bool :=
  s.conds.all id

/-- Process one line; `fuel` bounds the steps of macro replacement in a text
line. In a skipped group only the nesting of conditionals is followed. -/
def step (fuel : Nat) (s : PPState) : Line → Res PPState
  | .comment => .ok s
  | .blank => .ok s
  | .ifndef m =>
      if s.active then
        if m ∈ s.env.poisoned then .error (.poisoned m)
        else .ok { s with conds := (!s.env.defined.isDefined m) :: s.conds }
      else .ok { s with conds := false :: s.conds }
  | .define m d =>
      if s.active then
        if m ∈ s.env.poisoned then .error (.poisoned m)
        else .ok { s with env := { s.env with defined := s.env.defined.define m d } }
      else .ok s
  | .endif =>
      match s.conds with
      | [] => .error .endifWithoutIf
      | _ :: rest => .ok { s with conds := rest }
  | .text toks =>
      if s.active then
        match expand fuel s.env (toks.map (fun t => Work.mk t [] false)) [] with
        | .ok (env, line) => .ok { s with env := env, out := s.out ++ [line] }
        | .error e => .error e
        | .unsupported => .unsupported
        | .outOfFuel => .outOfFuel
      else .ok s

/-- Process the lines of a file in order, stopping at the first line that
does not finish. -/
def run (fuel : Nat) : PPState → List Line → Res PPState
  | s, [] => .ok s
  | s, l :: ls =>
      match step fuel s l with
      | .ok s1 => run fuel s1 ls
      | .error e => .error e
      | .unsupported => .unsupported
      | .outOfFuel => .outOfFuel

/-- Include a file from the top level of a translation unit: the result is
the new environment and the text lines emitted. A conditional group left open
at the end of the file is an error. -/
def includeFile (fuel : Nat) (ls : List Line) (env : Env) :
    Res (Env × List (List Token)) :=
  match run fuel { env := env, conds := [], out := [] } ls with
  | .ok s => if s.conds = [] then .ok (s.env, s.out) else .error .unterminatedConditional
  | .error e => .error e
  | .unsupported => .unsupported
  | .outOfFuel => .outOfFuel

/-- The include guard macro of the header. -/
def Curio_h : MacroName := "Curio_h"

/-- The text line that imports the module `m`. -/
def importOf (m : String) : List Token :=
  [.punct "@", .ident "import", .ident m, .punct ";"]

/-- The fourteen lines of `Sources/Curio/Curio.h`. -/
def header : List Line :=
  [ .comment,                        -- 1:  //
    .comment,                        -- 2:  //  Curio.h
    .comment,                        -- 3:  //  Bric-a-brac
    .comment,                        -- 4:  //
    .comment,                        -- 5:  //  Created by ...
    .comment,                        -- 6:  //
    .blank,                          -- 7:
    .ifndef Curio_h,                 -- 8:  #ifndef Curio_h
    .define Curio_h (.object []),    -- 9:  #define Curio_h
    .blank,                          -- 10:
    .comment,                        -- 11: // we globally ... because ...
    .text [.punct "@", .ident "import", .ident "BricBrac", .punct ";"],
                                     -- 12: @import BricBrac;
    .blank,                          -- 13:
    .endif ]                         -- 14: #endif /* Curio_h */

/-- Preprocessing of `Curio.h` on a full environment. -/
def includeCurioEnv (fuel : Nat) (env : Env) : Res (Env × List (List Token)) :=
  includeFile fuel header env

/-- Preprocessing of `Curio.h` as a step on the macro table of a translation
unit in which nothing is poisoned or saved yet. -/
def includeCurio (fuel : Nat) (t : Table) : Res (Table × List (List Token)) :=
  match includeCurioEnv fuel { defined := t, poisoned := [], pushed := [] } with
  | .ok (env, out) => .ok (env.defined, out)
  | .error e => .error e
  | .unsupported => .unsupported
  | .outOfFuel => .outOfFuel

/-- The effect of `#undef m` on the environment. -/
def Env.undef (m : MacroName) (e : Env) : Env :=
  { e with defined := e.defined.undef m }

/-- Whether the guard of the header is in force: `Curio_h` is defined and
not poisoned. -/
def Env.guarded (e : Env) : Bool :=
  e.defined.isDefined "Curio_h" && !decide ("Curio_h" ∈ e.poisoned)

/-- A translation unit that includes `Curio.h` `n` times in a row, with
nothing in between. -/
def includeTimesEnv (fuel : Nat) : Nat → Env → Res (Env × List (List Token))
  | 0, env => .ok (env, [])
  | n + 1, env =>
      match includeCurioEnv fuel env with
      | .ok (env1, out1) =>
          match includeTimesEnv fuel n env1 with
          | .ok (env2, out2) => .ok (env2, out1 ++ out2)
          | .error e => .error e
          | .unsupported => .unsupported
          | .outOfFuel => .outOfFuel
      | .error e => .error e
      | .unsupported => .unsupported
      | .outOfFuel => .outOfFuel

/-- The translation unit of `includeTimesEnv`, started from a macro table with
nothing poisoned or saved. -/
def includeTimes (fuel : Nat) (n : Nat) (t : Table) : Res (Table × List (List Token)) :=
  match includeTimesEnv fuel n { defined := t, poisoned := [], pushed := [] } with
  | .ok (env, out) => .ok (env.defined, out)
  | .error e => .error e
  | .unsupported => .unsupported
  | .outOfFuel => .outOfFuel

/-- The module a text line imports, if the line is a module import. -/
def importedModule : List Token → Option String
  | [.punct "@", .ident "import", .ident m, .punct ";"] => some m
  | _ => none

/-- The macro table after `#define DEBUG 1` and `#define MAX(a, b) ((a) > (b) ? (a) : (b))`:
none of the identifiers of the header is a macro. -/
def tablePlain : Table :=
  [ ("MAX", .function ["a", "b"]
      [.punct "(", .punct "(", .ident "a", .punct ")", .punct ">", .punct "(", .ident "b",
       .punct ")", .punct "?", .punct "(", .ident "a", .punct ")", .punct ":", .punct "(",
       .ident "b", .punct ")", .punct ")"]),
    ("DEBUG", .object [.number "1"]) ]

/-- The macro table after `#define Curio_h` and `#define DEBUG 1`: the including
file, or a compiler flag, defined the guard beforehand. -/
def tableGuarded : Table :=
  [ ("DEBUG", .object [.number "1"]), ("Curio_h", .object []) ]

/-- The macro table after `#define BricBrac X; int v`. -/
def tableValueDecl : Table :=
  [ ("BricBrac", .object [.ident "X", .punct ";", .ident "int", .ident "v"]) ]

/-- The macro table after `#define BricBrac BricBrac _Pragma("GCC poison Curio_h")`. -/
def tablePoison : Table :=
  [ ("BricBrac", .object [.ident "BricBrac", .pragmaOp (.poison ["Curio_h"])]) ]

/-- The macro table after `#define import`. -/
def tableNoImport : Table :=
  [ ("import", .object []) ]

/-- A name that is not an object-like macro is either undefined or
function-like. -/
theorem Table.lookup_of_not_objectLike (t : Table) (m : MacroName)
    (h : t.objectLike m = false) :
    t.lookup m = none ∨ ∃ ps body, t.lookup m = some (.function ps body) := by
  unfold Table.objectLike at h
  cases hl : t.lookup m with
  | none => exact Or.inl rfl
  | some d =>
    cases d with
    | object body => simp [hl] at h
    | function ps body => exact Or.inr ⟨ps, body, rfl⟩

/-- Line 12 passes through macro replacement unchanged when neither of its
identifiers is an object-like macro and nothing is poisoned. -/
theorem expand_line12 (fuel : Nat) (t : Table)
    (hi : t.objectLike "import" = false) (hb : t.objectLike "BricBrac" = false) :
    expand (fuel + 4) { defined := t, poisoned := [], pushed := [] }
      ([.punct "@", .ident "import", .ident "BricBrac", .punct ";"].map
        (fun k => Work.mk k [] false)) []
      = .ok ({ defined := t, poisoned := [], pushed := [] }, importOf "BricBrac") := by
  rcases Table.lookup_of_not_objectLike t _ hi with h1 | ⟨p1, b1, h1⟩ <;>
  rcases Table.lookup_of_not_objectLike t _ hb with h2 | ⟨p2, b2, h2⟩ <;>
  simp [expand, builtins, importOf, h1, h2]

/-- With the guard in force the whole body of the header is skipped. -/
theorem includeCurioEnv_of_guarded (fuel : Nat) (e : Env) (h : e.guarded = true) :
    includeCurioEnv fuel e = .ok (e, []) := by
  simp only [Env.guarded, Bool.and_eq_true, Bool.not_eq_true', decide_eq_false_iff_not] at h
  obtain ⟨hd, hp⟩ := h
  simp [includeCurioEnv, includeFile, run, header, step, PPState.active, Curio_h, hd, hp]

/-- A macro table in which the guard is defined, with nothing poisoned, has
the guard in force. -/
theorem guarded_of_defined (t : Table) (h : t.isDefined Curio_h = true) :
    Env.guarded { defined := t, poisoned := [], pushed := [] } = true := by
  simp only [Curio_h] at h
  simp [Env.guarded, h]

/-- With the guard macro undefined, and line 12 not subject to replacement,
the body is processed: the guard is defined and line 12 is emitted. -/
theorem includeCurioEnv_of_undefined (fuel : Nat) (t : Table)
    (h : t.isDefined Curio_h = false)
    (hi : t.objectLike "import" = false) (hb : t.objectLike "BricBrac" = false) :
    includeCurioEnv (fuel + 4) { defined := t, poisoned := [], pushed := [] }
      = .ok ({ defined := (Curio_h, .object []) :: t, poisoned := [], pushed := [] },
             [importOf "BricBrac"]) := by
  have hl : t.lookup "Curio_h" = none := by
    simpa [Table.isDefined, Curio_h] using h
  have hi1 : Table.objectLike (("Curio_h", MacroDef.object []) :: t) "import" = false := by
    simpa [Table.objectLike, List.lookup] using hi
  have hb1 : Table.objectLike (("Curio_h", MacroDef.object []) :: t) "BricBrac" = false := by
    simpa [Table.objectLike, List.lookup] using hb
  have hx := expand_line12 fuel _ hi1 hb1
  simp only [List.map] at hx
  simp only [Curio_h] at h
  simp [includeCurioEnv, includeFile, run, header, step, PPState.active, h, hl,
    Table.define, hx, Curio_h]

/-- Including the header again while the guard is in force changes nothing,
however often it is repeated. -/
theorem includeTimesEnv_of_guarded (fuel n : Nat) (e : Env) (h : e.guarded = true) :
    includeTimesEnv fuel n e = .ok (e, []) := by
  induction n with
  | zero => rfl
  | succ k ih => simp [includeTimesEnv, includeCurioEnv_of_guarded fuel e h, ih]

/-- With the guard macro already defined the inclusion changes and emits
nothing. -/
theorem includeCurio_of_defined (fuel : Nat) (t : Table)
    (h : t.isDefined Curio_h = true) :
    includeCurio fuel t = .ok (t, []) := by
  simp [includeCurio, includeCurioEnv_of_guarded fuel _ (guarded_of_defined t h)]

/-- Table form of `includeCurioEnv_of_undefined`. -/
theorem includeCurio_of_undefined (fuel : Nat) (t : Table)
    (h : t.isDefined Curio_h = false)
    (hi : t.objectLike "import" = false) (hb : t.objectLike "BricBrac" = false) :
    includeCurio (fuel + 4) t = .ok ((Curio_h, .object []) :: t, [importOf "BricBrac"]) := by
  simp [includeCurio, includeCurioEnv_of_undefined fuel t h hi hb]

/-- With the guard macro already defined any number of inclusions in a row
changes and emits nothing. -/
theorem includeTimes_of_defined (fuel n : Nat) (t : Table)
    (h : t.isDefined Curio_h = true) :
    includeTimes fuel n t = .ok (t, []) := by
  simp [includeTimes, includeTimesEnv_of_guarded fuel n _ (guarded_of_defined t h)]

/-- The guard macro is either defined or not. -/
theorem isDefined_true_or_false (t : Table) :
    t.isDefined Curio_h = true ∨ t.isDefined Curio_h = false := by
  cases t.isDefined Curio_h <;> simp

/-- Defining the guard leaves the definition of every other macro alone. -/
theorem lookup_guard_cons (t : Table) (m : MacroName) (hm : m ≠ Curio_h) :
    List.lookup m ((Curio_h, MacroDef.object []) :: t) = List.lookup m t := by
  have : (m == Curio_h) = false := by simpa using hm
  simp [List.lookup, this]

/-- The import line of a module is recognised as importing that module. -/
theorem importedModule_importOf (m : String) : importedModule (importOf m) = some m := by
  simp [importedModule, importOf]

/-- Evaluation on the empty macro table: the guard is defined and the import is
emitted. -/
theorem includeCurio_empty :
    includeCurio 4 [] = .ok ([("Curio_h", .object [])],
      [[.punct "@", .ident "import", .ident "BricBrac", .punct ";"]]) := by
  decide

/-- Three steps of macro replacement are not enough for the four tokens of
line 12. -/
theorem includeCurio_empty_three :
    includeCurio 3 [] = .outOfFuel := by
  decide

/-- Evaluation of three inclusions in a row from the empty macro table. -/
theorem includeTimes_three_empty :
    includeTimes 4 3 [] = .ok ([("Curio_h", .object [])], [importOf "BricBrac"]) := by
  decide

/-- An unmatched `#endif` is rejected. -/
theorem includeFile_unmatched_endif :
    includeFile 4 [.endif] { defined := [], poisoned := [], pushed := [] } = .error .endifWithoutIf := by
  decide

/-- The failure of a double inclusion after
`#define BricBrac BricBrac _Pragma("GCC poison Curio_h")` does not depend on
the number of replacement steps allowed, once line 12 can be replaced at all. -/
theorem includeTimes_two_tablePoison (fuel : Nat) :
    includeTimes (fuel + 6) 2 tablePoison = .error (.poisoned "Curio_h") := by
  simp [includeTimes, includeTimesEnv, includeCurioEnv, includeFile, run, header, step,
    PPState.active, tablePoison, Table.isDefined, Table.define, expand, builtins,
    Env.poison, List.lookup, Curio_h]

/-! ## Claims -/

/-- C3 as stated fails. After `#define BricBrac X; int v` the inclusion emits
the line `@import X; int v;`: the output is neither empty nor the single import
of BricBrac, and its line is not a module import but carries the declaration of
the value `v`. After `#define import` it emits the line `@ BricBrac;`, again
neither empty nor the import of BricBrac. -/
theorem declares_nothing_of_its_own_counterexample :
    (includeCurio 16 tableValueDecl
      = .ok ([("Curio_h", .object []),
              ("BricBrac", .object [.ident "X", .punct ";", .ident "int", .ident "v"])],
             [[.punct "@", .ident "import", .ident "X", .punct ";", .ident "int",
               .ident "v", .punct ";"]]) ∧
     [[Token.punct "@", .ident "import", .ident "X", .punct ";", .ident "int", .ident "v",
       .punct ";"]] ≠ [] ∧
     [[Token.punct "@", .ident "import", .ident "X", .punct ";", .ident "int", .ident "v",
       .punct ";"]] ≠ [importOf "BricBrac"] ∧
     importedModule [.punct "@", .ident "import", .ident "X", .punct ";", .ident "int",
       .ident "v", .punct ";"] = none) ∧
    (includeCurio 16 tableNoImport
      = .ok ([("Curio_h", .object []), ("import", .object [])],
             [[.punct "@", .ident "BricBrac", .punct ";"]]) ∧
     [[Token.punct "@", .ident "BricBrac", .punct ";"]] ≠ [] ∧
     [[Token.punct "@", .ident "BricBrac", .punct ";"]] ≠ [importOf "BricBrac"] ∧
     importedModule [.punct "@", .ident "BricBrac", .punct ";"] = none) :=
  ⟨⟨by decide, by decide, by decide, by decide⟩, ⟨by decide, by decide, by decide, by decide⟩⟩

/-- C3, amended (the header declares nothing of its own). For every starting
macro table in which `Curio_h` is already defined, or in which neither `import`
nor `BricBrac` is an object-like macro, and with at least four steps of macro
replacement allowed, including `Curio.h` succeeds; the lines it emits are either none or exactly the single import of
BricBrac, so every emitted line is a module import and none is a type, value,
function or state declaration; and the macro table afterwards is the one
before, possibly with the definition of `Curio_h` added: every other macro has
afterwards the definition it had before. -/
theorem declares_nothing_of_its_own (fuel : Nat) (t : Table)
    (hline : t.isDefined Curio_h = true ∨
      (t.objectLike "import" = false ∧ t.objectLike "BricBrac" = false)) :
    ∃ t1 out,
      includeCurio (fuel + 4) t = .ok (t1, out) ∧
      (out = [] ∨ out = [importOf "BricBrac"]) ∧
      (∀ l ∈ out, importedModule l = some "BricBrac") ∧
      (t1 = t ∨ t1 = (Curio_h, .object []) :: t) ∧
      ∀ m : MacroName, m ≠ Curio_h → t1.lookup m = t.lookup m := by
  rcases isDefined_true_or_false t with h | h
  · exact ⟨t, [], includeCurio_of_defined _ t h, Or.inl rfl, by simp, Or.inl rfl,
      fun _ _ => rfl⟩
  · obtain ⟨hi, hb⟩ : t.objectLike "import" = false ∧ t.objectLike "BricBrac" = false := by
      rcases hline with hd | hl
      · rw [h] at hd
        exact absurd hd (by decide)
      · exact hl
    refine ⟨(Curio_h, .object []) :: t, [importOf "BricBrac"],
      includeCurio_of_undefined fuel t h hi hb, Or.inr rfl, ?_, Or.inr rfl,
      fun m hm => lookup_guard_cons t m hm⟩
    intro l hl
    simp only [List.mem_singleton] at hl
    rw [hl, importedModule_importOf]

/-- Witness for C3, amended: a translation unit that defined `DEBUG` and the
function-like `MAX` before the inclusion. -/
theorem declares_nothing_of_its_own_witness :
    (tablePlain.isDefined Curio_h = true ∨
      (tablePlain.objectLike "import" = false ∧ tablePlain.objectLike "BricBrac" = false)) ∧
    ∃ t1 out,
      includeCurio (0 + 4) tablePlain = .ok (t1, out) ∧
      (out = [] ∨ out = [importOf "BricBrac"]) ∧
      (∀ l ∈ out, importedModule l = some "BricBrac") ∧
      (t1 = tablePlain ∨ t1 = (Curio_h, .object []) :: tablePlain) ∧
      ∀ m : MacroName, m ≠ Curio_h → t1.lookup m = tablePlain.lookup m :=
  ⟨Or.inr ⟨by decide, by decide⟩,
    declares_nothing_of_its_own 0 tablePlain (Or.inr ⟨by decide, by decide⟩)⟩

/-- C4 (the guard is unconditional on a pre-defined `Curio_h`). When the macro
`Curio_h` is already defined before the header is first included, including
`Curio.h` emits nothing, in particular no import of BricBrac, and leaves the
macro table unchanged, whatever the other macros are and however many steps of
macro replacement are allowed; the same holds for any number of inclusions in a
row. -/
theorem predefined_guard_skips_import (fuel : Nat) (t : Table)
    (h : t.isDefined Curio_h = true) :
    includeCurio fuel t = .ok (t, []) ∧
    (∀ t1 out, includeCurio fuel t = .ok (t1, out) →
      t1 = t ∧ importOf "BricBrac" ∉ out) ∧
    ∀ n : Nat, includeTimes fuel n t = .ok (t, []) := by
  refine ⟨includeCurio_of_defined fuel t h, ?_, fun n => includeTimes_of_defined fuel n t h⟩
  intro t1 out heq
  rw [includeCurio_of_defined fuel t h] at heq
  simp only [Res.ok.injEq, Prod.mk.injEq] at heq
  obtain ⟨h1, h2⟩ := heq
  subst h1 h2
  simp

/-- Witness for C4: the including file, or a compiler flag, defined `Curio_h`
beforehand. -/
theorem predefined_guard_skips_import_witness :
    tableGuarded.isDefined Curio_h = true ∧
    (includeCurio 16 tableGuarded = .ok (tableGuarded, []) ∧
     (∀ t1 out, includeCurio 16 tableGuarded = .ok (t1, out) →
       t1 = tableGuarded ∧ importOf "BricBrac" ∉ out) ∧
     ∀ n : Nat, includeTimes 16 n tableGuarded = .ok (tableGuarded, [])) :=
  ⟨by decide, predefined_guard_skips_import 16 tableGuarded (by decide)⟩

end Curio
